import Mathlib

/-!
Shallow embedding of the `color_changer` crate (src/lib.rs, src/rgb.rs,
src/cmyk.rs).

Modelling conventions:
* Rust `u8` / `u16` become `Fin 256` / `Fin 65536`.
* Rust `f64` arithmetic is modelled by exact rational arithmetic (`ℚ`).
  Every floating-point computation appearing in the claims is either exact
  in `f64` (black/white corners) or lies far from a rounding boundary, so
  the rational model produces the same rounded integers as the binary64
  program does.
* `f64::round` rounds half away from zero; `as u8` / `as u16` on an
  integral-valued float is a saturating cast.  Both are modelled exactly.
* A Rust `panic!` / failed `assert!` / `unreachable!` is modelled by
  `Option.none` (for `CMYK::new` and its helpers) or by a dedicated
  `panicked` result constructor (for `from_hex`).
* The regex `#?([0-9a-fA-F]{2})([0-9a-fA-F]{2})([0-9a-fA-F]{2})` from
  `lib.rs` is unanchored; `Regex::captures` performs a leftmost search with
  the greedy optional `#`.  `regexCaptures` implements exactly that search.
-/

namespace ColorChanger

/-! ### RGB model (src/rgb.rs) -/

/-- `RGB` struct: three `u8` components r, g, b. -/
structure RGB where
  r : Fin 256
  g : Fin 256
  b : Fin 256
deriving DecidableEq

/-- `RGB::new(r, g, b)`: pure constructor. -/
def RGB.new (r g b : Fin 256) : RGB := ⟨r, g, b⟩

/-- `RGB::BLACK = RGB::new(0, 0, 0)`. -/
def RGB.BLACK : RGB := RGB.new 0 0 0

/-- `RGB::WHITE = RGB::new(0xFF, 0xFF, 0xFF)`. -/
def RGB.WHITE : RGB := RGB.new 255 255 255

/-- `RGB::as_parts`: the raw bytes in R,G,B order. -/
def RGB.as_parts (x : RGB) : List (Fin 256) := [x.r, x.g, x.b]

/-- `RGB::is_black`: `self.as_parts().iter().all(|&x| x == 0)`. -/
def RGB.is_black (x : RGB) : Bool := x.as_parts.all (fun v => v.val == 0)

/-- One uppercase hexadecimal digit, as produced by Rust `{:02X}` formatting
(`0`–`9` are codepoints 48–57, `A`–`F` are 65–70). -/
def hexUpperDigit (n : Nat) : Char := if n < 10 then Char.ofNat (48 + n) else Char.ofNat (55 + n)

/-- `{:02X}` applied to a `u8`: exactly two uppercase hex digits, zero padded. -/
def byteHex (n : Nat) : String := String.mk [hexUpperDigit (n / 16), hexUpperDigit (n % 16)]

/-- `impl Display for RGB`: `write!(f, "{:02X}{:02X}{:02X}", r, g, b)`. -/
def RGB.render (x : RGB) : String := byteHex x.r.val ++ byteHex x.g.val ++ byteHex x.b.val

/-- `impl Color for RGB`: `into_rgb` is the identity. -/
def RGB.into_rgb (x : RGB) : RGB := x

/-- `impl Color for RGB`: `from_rgb` is the identity. -/
def RGB.from_rgb (x : RGB) : RGB := x

/-! ### CMYK model (src/cmyk.rs) -/

/-- `CMYK` struct: four `u16` components c, m, y, k. -/
structure CMYK where
  c : Fin 65536
  m : Fin 65536
  y : Fin 65536
  k : Fin 65536
deriving DecidableEq

/-- `CMYK::from_parts([c, m, y, k])`: raw constructor from `u16` parts. -/
def CMYK.from_parts (c m y k : Fin 65536) : CMYK := ⟨c, m, y, k⟩

/-- `CMYK::BLACK = CMYK::from_parts([0, 0, 0, u16::MAX])`. -/
def CMYK.BLACK : CMYK := CMYK.from_parts 0 0 0 65535

/-- `CMYK::WHITE = CMYK::from_parts([0, 0, 0, 0])`. -/
def CMYK.WHITE : CMYK := CMYK.from_parts 0 0 0 0

/-- `CMYK::conv_to_float(i)`: `(i as f64) / u16::MAX as f64`. -/
def CMYK.conv_to_float (i : Fin 65536) : ℚ := (i.val : ℚ) / 65535

/-- `CMYK::valid_cmyk_float(f)`: `0.0 <= f && f <= 1.0`. -/
def CMYK.valid_cmyk_float (f : ℚ) : Bool := decide (0 ≤ f ∧ f ≤ 1)

/-- `f64::round`: round to nearest integer, ties away from zero. -/
def f64Round (x : ℚ) : ℤ := if 0 ≤ x then Rat.floor (x + 1/2) else -Rat.floor (-x + 1/2)

/-- Rust `as u16` applied to an integral-valued `f64`: saturating cast. -/
def intAsU16 (x : ℤ) : Fin 65536 := ⟨min x.toNat 65535, by omega⟩

/-- Rust `as u8` applied to an integral-valued `f64`: saturating cast. -/
def intAsU8 (x : ℤ) : Fin 256 := ⟨min x.toNat 255, by omega⟩

/-- `CMYK::conv_to_int(f)`: `assert!(valid_cmyk_float(f)); (f * u16::MAX as f64).round() as u16`.
A failed assertion (panic) is modelled by `none`. -/
def CMYK.conv_to_int (f : ℚ) : Option (Fin 65536) :=
  if CMYK.valid_cmyk_float f then some (intAsU16 (f64Round (f * 65535))) else none

/-- `CMYK::new(c, m, y, k)`: converts the four floats with `conv_to_int` in
order; a panic in any conversion is modelled by `none`. -/
def CMYK.new (c m y k : ℚ) : Option CMYK :=
  (CMYK.conv_to_int c).bind fun c' =>
  (CMYK.conv_to_int m).bind fun m' =>
  (CMYK.conv_to_int y).bind fun y' =>
  (CMYK.conv_to_int k).map fun k' => CMYK.from_parts c' m' y' k'

/-- `CMYK::as_parts`: the four float views in C,M,Y,K order. -/
def CMYK.as_parts (x : CMYK) : ℚ × ℚ × ℚ × ℚ :=
  (CMYK.conv_to_float x.c, CMYK.conv_to_float x.m, CMYK.conv_to_float x.y,
   CMYK.conv_to_float x.k)

/-- `CMYK::as_int_parts`: the raw `u16` quadruple in C,M,Y,K order. -/
def CMYK.as_int_parts (x : CMYK) : List (Fin 65536) := [x.c, x.m, x.y, x.k]

/-- `<CMYK as Color>::as_rgb`: `255.0 * (1.0 - channel) * (1.0 - k)`, rounded
once with `f64::round`, then cast with `as u8`. -/
def CMYK.as_rgb (x : CMYK) : RGB :=
  let (c, m, y, k) := CMYK.as_parts x
  let r := 255 * (1 - c) * (1 - k)
  let g := 255 * (1 - m) * (1 - k)
  let b := 255 * (1 - y) * (1 - k)
  RGB.new (intAsU8 (f64Round r)) (intAsU8 (f64Round g)) (intAsU8 (f64Round b))

/-- `[c.r, c.g, c.b].iter().max().unwrap()` from `CMYK::from_rgb`. -/
def maxChan (x : RGB) : Nat := max x.r.val (max x.g.val x.b.val)

/-- The let-binding `k` in `CMYK::from_rgb`:
`1.0 - (max as f64 / 255.0)` over the original integer channel values. -/
def CMYK.k_of (x : RGB) : ℚ := 1 - (maxChan x : ℚ) / 255

/-- The let-binding `c` in `CMYK::from_rgb`: `(1.0 - r_p - k) / (1.0 - k)`. -/
def CMYK.c_of (x : RGB) : ℚ := (1 - (x.r.val : ℚ) / 255 - CMYK.k_of x) / (1 - CMYK.k_of x)

/-- The let-binding `m` in `CMYK::from_rgb`: `(1.0 - g_p - k) / (1.0 - k)`. -/
def CMYK.m_of (x : RGB) : ℚ := (1 - (x.g.val : ℚ) / 255 - CMYK.k_of x) / (1 - CMYK.k_of x)

/-- The let-binding `y` in `CMYK::from_rgb`: `(1.0 - b_p - k) / (1.0 - k)`. -/
def CMYK.y_of (x : RGB) : ℚ := (1 - (x.b.val : ℚ) / 255 - CMYK.k_of x) / (1 - CMYK.k_of x)

/-- `<CMYK as Color>::from_rgb`: black short-circuits to `CMYK::BLACK`,
otherwise the four floats go through `CMYK::new` (whose possible panic is
modelled by `none`). -/
def CMYK.from_rgb (x : RGB) : Option CMYK :=
  if x.is_black then some CMYK.BLACK
  else CMYK.new (CMYK.c_of x) (CMYK.m_of x) (CMYK.y_of x) (CMYK.k_of x)

/-- `<CMYK as Color>::into_rgb`: the trait's default forwards to `as_rgb`. -/
def CMYK.into_rgb (x : CMYK) : RGB := CMYK.as_rgb x

/-- `rgb.into_color::<CMYK>()` = `CMYK::from_rgb(rgb.into_rgb())`. -/
def rgbIntoCmyk (x : RGB) : Option CMYK := CMYK.from_rgb (RGB.into_rgb x)

/-- `cmyk.into_color::<RGB>()` = `RGB::from_rgb(cmyk.into_rgb())`. -/
def cmykIntoRgb (x : CMYK) : RGB := RGB.from_rgb (CMYK.into_rgb x)

/-- Two decimal digits, zero padded, of `n < 100` (codepoint of `0` is 48). -/
def twoDecDigits (n : Nat) : String :=
  String.mk [Char.ofNat (48 + n / 10 % 10), Char.ofNat (48 + n % 10)]

/-- Rust `{:.2}` formatting of a nonnegative `f64`: the value rounded to two
decimal places.  Rust rounds the exact binary value to nearest with ties to
even; for the values `i / 65535` and `i / 65535 * 100` a tie is impossible
(65535 is odd), so rounding half away from zero agrees with it on every
value this program formats. -/
def fmtTwoDec (x : ℚ) : String :=
  Nat.repr ((f64Round (x * 100)).toNat / 100) ++ "." ++ twoDecDigits ((f64Round (x * 100)).toNat % 100)

/-- `impl Display for CMYK`: `"({:.2},{:.2},{:.2},{:.2})"` over the four
float views. -/
def CMYK.render (x : CMYK) : String :=
  "(" ++ fmtTwoDec (CMYK.conv_to_float x.c) ++ "," ++ fmtTwoDec (CMYK.conv_to_float x.m) ++
  "," ++ fmtTwoDec (CMYK.conv_to_float x.y) ++ "," ++ fmtTwoDec (CMYK.conv_to_float x.k) ++ ")"

/-! ### Hex codec (src/lib.rs) -/

/-- The regex character class `[0-9a-fA-F]` (codepoints 48–57, 97–102, 65–70). -/
def isHexDigit (c : Char) : Bool :=
  (decide (48 ≤ c.toNat) && decide (c.toNat ≤ 57)) ||
  (decide (97 ≤ c.toNat) && decide (c.toNat ≤ 102)) ||
  (decide (65 ≤ c.toNat) && decide (c.toNat ≤ 70))

/-- The value of one hex digit, as consumed by `u8::from_str_radix(_, 16)`
(`char::to_digit(16)`). -/
def hexVal (c : Char) : Option Nat :=
  if 48 ≤ c.toNat ∧ c.toNat ≤ 57 then some (c.toNat - 48)
  else if 97 ≤ c.toNat ∧ c.toNat ≤ 102 then some (c.toNat - 97 + 10)
  else if 65 ≤ c.toNat ∧ c.toNat ≤ 70 then some (c.toNat - 65 + 10)
  else none

/-- Attempt of `([0-9a-fA-F]{2})([0-9a-fA-F]{2})([0-9a-fA-F]{2})` at a fixed
position: six hex digit characters captured as three groups of two. -/
def sixHexAt : List Char → Option (List Char × List Char × List Char)
  | a :: b :: c :: d :: e :: f :: _ =>
    if isHexDigit a && isHexDigit b && isHexDigit c && isHexDigit d &&
       isHexDigit e && isHexDigit f
    then some ([a, b], [c, d], [e, f]) else none
  | _ => none

/-- `HEX_RE.captures(s)`: leftmost search of the unanchored pattern
`#?([0-9a-fA-F]{2})([0-9a-fA-F]{2})([0-9a-fA-F]{2})`; at each start position
the greedy `#?` first tries to consume a `#`, then tries the empty
alternative. -/
def regexCaptures : List Char → Option (List Char × List Char × List Char)
  | [] => none
  | ch :: rest =>
    match (if ch = '#' then sixHexAt rest else none) with
    | some g => some g
    | none =>
      match sixHexAt (ch :: rest) with
      | some g => some g
      | none => regexCaptures rest

/-- Digit-accumulation loop of `u8::from_str_radix(_, 16)`. -/
def parseHexDigits : Nat → List Char → Option Nat
  | acc, [] => some acc
  | acc, c :: rest =>
    match hexVal c with
    | some v => parseHexDigits (acc * 16 + v) rest
    | none => none

/-- `u8::from_str_radix(s, 16)`: errs on an empty string, on a non-digit
character, and on overflow past `u8::MAX`.  (Rust checks overflow after each
accumulation step; since the accumulator never decreases, that is equivalent
to the final-value check used here.  Sign handling is omitted: the inputs are
regex capture groups consisting of hex digits only.) -/
def parseU8Hex (l : List Char) : Option (Fin 256) :=
  if l.isEmpty then none
  else
    match parseHexDigits 0 l with
    | none => none
    | some n => if h : n < 256 then some ⟨n, h⟩ else none

/-- `ColorParseError`: `BadInput` | `ParseFailure(ParseIntError)` (the payload
carries diagnostics only and is not modelled). -/
inductive ColorParseError where
  | BadInput : ColorParseError
  | ParseFailure : ColorParseError
deriving DecidableEq

/-- `try_fold` in `from_hex`: parse each captured group, pushing onto the
accumulator; the first parse error aborts with `ParseFailure`. -/
def tryFoldBytes : List (List Char) → List (Fin 256) → Except ColorParseError (List (Fin 256))
  | [], acc => .ok acc
  | g :: rest, acc =>
    match parseU8Hex g with
    | some v => tryFoldBytes rest (acc ++ [v])
    | none => .error .ParseFailure

/-- Outcome of `from_hex`: success, a returned error, or a panic
(the `unreachable!()` arm). -/
inductive FromHexResult where
  | ok : RGB → FromHexResult
  | err : ColorParseError → FromHexResult
  | panicked : FromHexResult
deriving DecidableEq

/-- `Color::from_hex` instantiated at `RGB` (`RGB::from_rgb` is the
identity): regex search, per-group byte parsing via `try_fold`, then the
slice match `[r, g, b]` whose fallback arm is `unreachable!()`. -/
def from_hex (s : String) : FromHexResult :=
  match regexCaptures s.data with
  | none => .err .BadInput
  | some (g1, g2, g3) =>
    match tryFoldBytes [g1, g2, g3] [] with
    | .error e => .err e
    | .ok [r, g, b] => .ok (RGB.new r g b)
    | .ok _ => .panicked

/-- Modelled from the spec: the anchored whole-input pattern
`^#?[0-9a-fA-F]{6}$` that the claim attributes to `from_hex` (the source
regex `HEX_RE` carries no anchors). -/
def anchoredHexMatch (l : List Char) : Bool :=
  match l with
  | '#' :: rest => decide (rest.length = 6) && rest.all isHexDigit
  | _ => decide (l.length = 6) && l.all isHexDigit

/-- Modelled from the spec: an uppercase hexadecimal digit
(`0`–`9` or `A`–`F`), for stating the Display property. -/
def isUpperHexDigit (c : Char) : Bool :=
  (decide (48 ≤ c.toNat) && decide (c.toNat ≤ 57)) ||
  (decide (65 ≤ c.toNat) && decide (c.toNat ≤ 70))

/-! ### Evaluation lemmas for the rational model -/

lemma ratFloor_eq {q : ℚ} {n : ℤ} (h1 : (n : ℚ) ≤ q) (h2 : q < n + 1) : Rat.floor q = n := by
  have hle : n ≤ Rat.floor q := Rat.le_floor.mpr h1
  have hlt : Rat.floor q < n + 1 := by
    by_contra h
    push_neg at h
    have := Rat.le_floor.mp h
    push_cast at this
    linarith
  omega

lemma f64Round_nonneg_eq {x : ℚ} (h : 0 ≤ x) : f64Round x = Rat.floor (x + 1/2) :=
  if_pos h

lemma f64Round_nonneg {x : ℚ} (h : 0 ≤ x) : 0 ≤ f64Round x := by
  rw [f64Round_nonneg_eq h]
  exact Rat.le_floor.mpr (by push_cast; linarith)

lemma f64Round_le {x : ℚ} {n : ℕ} (h : 0 ≤ x) (hx : x ≤ n) : f64Round x ≤ n := by
  rw [f64Round_nonneg_eq h]
  by_contra hc
  push_neg at hc
  have := Rat.le_floor.mp hc
  push_cast at this
  linarith

lemma conv_to_int_eq {f : ℚ} {n : ℕ} (hn : n < 65536) (h0 : 0 ≤ f) (h1 : f ≤ 1)
    (hl : (n : ℚ) ≤ f * 65535 + 1/2) (hu : f * 65535 + 1/2 < n + 1) :
    CMYK.conv_to_int f = some ⟨n, hn⟩ := by
  unfold CMYK.conv_to_int
  rw [if_pos (by unfold CMYK.valid_cmyk_float; exact decide_eq_true ⟨h0, h1⟩)]
  rw [f64Round_nonneg_eq (by positivity)]
  rw [ratFloor_eq (n := (n : ℤ)) (by push_cast; exact hl) (by push_cast; exact hu)]
  unfold intAsU16
  exact congrArg some (Fin.ext (by simp; omega))

lemma conv_to_int_isSome {f : ℚ} (h0 : 0 ≤ f) (h1 : f ≤ 1) :
    ∃ v, CMYK.conv_to_int f = some v := by
  unfold CMYK.conv_to_int
  rw [if_pos (by unfold CMYK.valid_cmyk_float; exact decide_eq_true ⟨h0, h1⟩)]
  exact ⟨_, rfl⟩

lemma new_eq {c m y k : ℚ} {c' m' y' k' : Fin 65536}
    (hc : CMYK.conv_to_int c = some c') (hm : CMYK.conv_to_int m = some m')
    (hy : CMYK.conv_to_int y = some y') (hk : CMYK.conv_to_int k = some k') :
    CMYK.new c m y k = some (CMYK.from_parts c' m' y' k') := by
  unfold CMYK.new
  rw [hc, hm, hy, hk]
  rfl

lemma from_rgb_not_black_eq {x : RGB} (h : x.is_black = false) :
    CMYK.from_rgb x = CMYK.new (CMYK.c_of x) (CMYK.m_of x) (CMYK.y_of x) (CMYK.k_of x) := by
  unfold CMYK.from_rgb
  rw [h]
  rfl

lemma as_rgb_eq (x : CMYK) :
    CMYK.as_rgb x = RGB.new
      (intAsU8 (f64Round (255 * (1 - CMYK.conv_to_float x.c) * (1 - CMYK.conv_to_float x.k))))
      (intAsU8 (f64Round (255 * (1 - CMYK.conv_to_float x.m) * (1 - CMYK.conv_to_float x.k))))
      (intAsU8 (f64Round (255 * (1 - CMYK.conv_to_float x.y) * (1 - CMYK.conv_to_float x.k)))) :=
  rfl

lemma channel_eval {q : ℚ} {n : ℕ} (hn : n < 256) (h0 : 0 ≤ q)
    (hl : (n : ℚ) ≤ q + 1/2) (hu : q + 1/2 < n + 1) :
    intAsU8 (f64Round q) = ⟨n, hn⟩ := by
  rw [f64Round_nonneg_eq h0]
  rw [ratFloor_eq (n := (n : ℤ)) (by push_cast; exact hl) (by push_cast; exact hu)]
  unfold intAsU8
  exact Fin.ext (by simp; omega)

lemma fmtTwoDec_eval {q : ℚ} {n : ℕ} (h0 : 0 ≤ q)
    (hl : (n : ℚ) ≤ q * 100 + 1/2) (hu : q * 100 + 1/2 < n + 1) :
    fmtTwoDec q = Nat.repr (n / 100) ++ "." ++ twoDecDigits (n % 100) := by
  unfold fmtTwoDec
  rw [f64Round_nonneg_eq (by positivity)]
  rw [ratFloor_eq (n := (n : ℤ)) (by push_cast; exact hl) (by push_cast; exact hu)]
  simp

lemma conv_to_float_nonneg (i : Fin 65536) : 0 ≤ CMYK.conv_to_float i := by
  unfold CMYK.conv_to_float
  positivity

lemma conv_to_float_le_one (i : Fin 65536) : CMYK.conv_to_float i ≤ 1 := by
  unfold CMYK.conv_to_float
  rw [div_le_one (by norm_num)]
  exact_mod_cast Nat.le_of_lt_succ i.isLt

/-! ### Concrete conversions at the corner values -/

lemma from_rgb_black : CMYK.from_rgb RGB.BLACK = some CMYK.BLACK := rfl

lemma from_rgb_white : CMYK.from_rgb RGB.WHITE = some CMYK.WHITE := by
  rw [from_rgb_not_black_eq (by decide)]
  have hrq : ((RGB.WHITE.r.val : ℕ) : ℚ) = 255 := by norm_num [show RGB.WHITE.r.val = 255 from rfl]
  have hgq : ((RGB.WHITE.g.val : ℕ) : ℚ) = 255 := by norm_num [show RGB.WHITE.g.val = 255 from rfl]
  have hbq : ((RGB.WHITE.b.val : ℕ) : ℚ) = 255 := by norm_num [show RGB.WHITE.b.val = 255 from rfl]
  have hmax : ((maxChan RGB.WHITE : ℕ) : ℚ) = 255 := by
    norm_num [show maxChan RGB.WHITE = 255 from rfl]
  have hk : CMYK.k_of RGB.WHITE = 0 := by unfold CMYK.k_of; rw [hmax]; norm_num
  have hc : CMYK.c_of RGB.WHITE = 0 := by unfold CMYK.c_of; rw [hk, hrq]; norm_num
  have hm : CMYK.m_of RGB.WHITE = 0 := by unfold CMYK.m_of; rw [hk, hgq]; norm_num
  have hy : CMYK.y_of RGB.WHITE = 0 := by unfold CMYK.y_of; rw [hk, hbq]; norm_num
  rw [hc, hm, hy, hk]
  have h0 : CMYK.conv_to_int 0 = some ⟨0, by omega⟩ :=
    conv_to_int_eq (by omega) (by norm_num) (by norm_num) (by norm_num) (by norm_num)
  rw [new_eq h0 h0 h0 h0]
  decide

lemma as_rgb_black_eval : CMYK.as_rgb CMYK.BLACK = RGB.BLACK := by
  rw [as_rgb_eq]
  have hc : CMYK.conv_to_float CMYK.BLACK.c = 0 := by
    norm_num [CMYK.conv_to_float, show CMYK.BLACK.c.val = 0 from rfl]
  have hm : CMYK.conv_to_float CMYK.BLACK.m = 0 := by
    norm_num [CMYK.conv_to_float, show CMYK.BLACK.m.val = 0 from rfl]
  have hy : CMYK.conv_to_float CMYK.BLACK.y = 0 := by
    norm_num [CMYK.conv_to_float, show CMYK.BLACK.y.val = 0 from rfl]
  have hk : CMYK.conv_to_float CMYK.BLACK.k = 1 := by
    norm_num [CMYK.conv_to_float, show CMYK.BLACK.k.val = 65535 from rfl]
  rw [hc, hm, hy, hk]
  have e0 : intAsU8 (f64Round (255 * (1 - (0:ℚ)) * (1 - 1))) = ⟨0, by omega⟩ :=
    channel_eval (by omega) (by norm_num) (by norm_num) (by norm_num)
  rw [e0]
  decide

lemma as_rgb_white_eval : CMYK.as_rgb CMYK.WHITE = RGB.WHITE := by
  rw [as_rgb_eq]
  have hc : CMYK.conv_to_float CMYK.WHITE.c = 0 := by
    norm_num [CMYK.conv_to_float, show CMYK.WHITE.c.val = 0 from rfl]
  have hm : CMYK.conv_to_float CMYK.WHITE.m = 0 := by
    norm_num [CMYK.conv_to_float, show CMYK.WHITE.m.val = 0 from rfl]
  have hy : CMYK.conv_to_float CMYK.WHITE.y = 0 := by
    norm_num [CMYK.conv_to_float, show CMYK.WHITE.y.val = 0 from rfl]
  have hk : CMYK.conv_to_float CMYK.WHITE.k = 0 := by
    norm_num [CMYK.conv_to_float, show CMYK.WHITE.k.val = 0 from rfl]
  rw [hc, hm, hy, hk]
  have e0 : intAsU8 (f64Round (255 * (1 - (0:ℚ)) * (1 - 0))) = ⟨255, by omega⟩ :=
    channel_eval (by omega) (by norm_num) (by norm_num) (by norm_num)
  rw [e0]
  decide

/-! ### Concrete conversions for the `#EDBBF3` test vector
(r = 237, g = 187, b = 243, so max = 243, k = 12/255, c = 6/243, m = 56/243,
y = 0; scaled by 65535 and rounded: 1618, 15103, 0, 3084). -/

lemma from_rgb_edbbf3 :
    CMYK.from_rgb (RGB.new 237 187 243) =
      some (CMYK.from_parts ⟨1618, by omega⟩ ⟨15103, by omega⟩ ⟨0, by omega⟩ ⟨3084, by omega⟩) := by
  rw [from_rgb_not_black_eq (by decide)]
  have hrq : (((RGB.new 237 187 243).r.val : ℕ) : ℚ) = 237 := by
    norm_num [show (RGB.new 237 187 243).r.val = 237 from rfl]
  have hgq : (((RGB.new 237 187 243).g.val : ℕ) : ℚ) = 187 := by
    norm_num [show (RGB.new 237 187 243).g.val = 187 from rfl]
  have hbq : (((RGB.new 237 187 243).b.val : ℕ) : ℚ) = 243 := by
    norm_num [show (RGB.new 237 187 243).b.val = 243 from rfl]
  have hmax : ((maxChan (RGB.new 237 187 243) : ℕ) : ℚ) = 243 := by
    norm_num [show maxChan (RGB.new 237 187 243) = 243 from rfl]
  have hk : CMYK.k_of (RGB.new 237 187 243) = 1 - 243/255 := by unfold CMYK.k_of; rw [hmax]
  have hc : CMYK.c_of (RGB.new 237 187 243) = (1 - 237/255 - (1 - 243/255)) / (1 - (1 - 243/255)) := by
    unfold CMYK.c_of; rw [hk, hrq]
  have hm : CMYK.m_of (RGB.new 237 187 243) = (1 - 187/255 - (1 - 243/255)) / (1 - (1 - 243/255)) := by
    unfold CMYK.m_of; rw [hk, hgq]
  have hy : CMYK.y_of (RGB.new 237 187 243) = (1 - 243/255 - (1 - 243/255)) / (1 - (1 - 243/255)) := by
    unfold CMYK.y_of; rw [hk, hbq]
  rw [hc, hm, hy, hk]
  exact new_eq
    (conv_to_int_eq (by omega) (by norm_num) (by norm_num) (by norm_num) (by norm_num))
    (conv_to_int_eq (by omega) (by norm_num) (by norm_num) (by norm_num) (by norm_num))
    (conv_to_int_eq (by omega) (by norm_num) (by norm_num) (by norm_num) (by norm_num))
    (conv_to_int_eq (by omega) (by norm_num) (by norm_num) (by norm_num) (by norm_num))

lemma as_rgb_edbbf3 :
    CMYK.as_rgb (CMYK.from_parts ⟨1618, by omega⟩ ⟨15103, by omega⟩ ⟨0, by omega⟩ ⟨3084, by omega⟩) =
      RGB.new 237 187 243 := by
  rw [as_rgb_eq]
  have hc : CMYK.conv_to_float (CMYK.from_parts ⟨1618, by omega⟩ ⟨15103, by omega⟩ ⟨0, by omega⟩ ⟨3084, by omega⟩).c = 1618/65535 := by
    norm_num [CMYK.conv_to_float, CMYK.from_parts]
  have hm : CMYK.conv_to_float (CMYK.from_parts ⟨1618, by omega⟩ ⟨15103, by omega⟩ ⟨0, by omega⟩ ⟨3084, by omega⟩).m = 15103/65535 := by
    norm_num [CMYK.conv_to_float, CMYK.from_parts]
  have hy : CMYK.conv_to_float (CMYK.from_parts ⟨1618, by omega⟩ ⟨15103, by omega⟩ ⟨0, by omega⟩ ⟨3084, by omega⟩).y = 0 := by
    norm_num [CMYK.conv_to_float, CMYK.from_parts]
  have hk : CMYK.conv_to_float (CMYK.from_parts ⟨1618, by omega⟩ ⟨15103, by omega⟩ ⟨0, by omega⟩ ⟨3084, by omega⟩).k = 3084/65535 := by
    norm_num [CMYK.conv_to_float, CMYK.from_parts]
  rw [hc, hm, hy, hk]
  have e1 : intAsU8 (f64Round (255 * (1 - (1618:ℚ)/65535) * (1 - (3084:ℚ)/65535))) = ⟨237, by omega⟩ :=
    channel_eval (by omega) (by norm_num) (by norm_num) (by norm_num)
  have e2 : intAsU8 (f64Round (255 * (1 - (15103:ℚ)/65535) * (1 - (3084:ℚ)/65535))) = ⟨187, by omega⟩ :=
    channel_eval (by omega) (by norm_num) (by norm_num) (by norm_num)
  have e3 : intAsU8 (f64Round (255 * (1 - (0:ℚ)) * (1 - (3084:ℚ)/65535))) = ⟨243, by omega⟩ :=
    channel_eval (by omega) (by norm_num) (by norm_num) (by norm_num)
  rw [e1, e2, e3]
  decide

lemma render_edbbf3 :
    CMYK.render (CMYK.from_parts ⟨1618, by omega⟩ ⟨15103, by omega⟩ ⟨0, by omega⟩ ⟨3084, by omega⟩) =
      "(0.02,0.23,0.00,0.05)" := by
  unfold CMYK.render
  have hc : CMYK.conv_to_float (CMYK.from_parts ⟨1618, by omega⟩ ⟨15103, by omega⟩ ⟨0, by omega⟩ ⟨3084, by omega⟩).c = 1618/65535 := by
    norm_num [CMYK.conv_to_float, CMYK.from_parts]
  have hm : CMYK.conv_to_float (CMYK.from_parts ⟨1618, by omega⟩ ⟨15103, by omega⟩ ⟨0, by omega⟩ ⟨3084, by omega⟩).m = 15103/65535 := by
    norm_num [CMYK.conv_to_float, CMYK.from_parts]
  have hy : CMYK.conv_to_float (CMYK.from_parts ⟨1618, by omega⟩ ⟨15103, by omega⟩ ⟨0, by omega⟩ ⟨3084, by omega⟩).y = 0 := by
    norm_num [CMYK.conv_to_float, CMYK.from_parts]
  have hk : CMYK.conv_to_float (CMYK.from_parts ⟨1618, by omega⟩ ⟨15103, by omega⟩ ⟨0, by omega⟩ ⟨3084, by omega⟩).k = 3084/65535 := by
    norm_num [CMYK.conv_to_float, CMYK.from_parts]
  rw [hc, hm, hy, hk]
  rw [fmtTwoDec_eval (q := (1618:ℚ)/65535) (n := 2) (by positivity) (by norm_num) (by norm_num)]
  rw [fmtTwoDec_eval (q := (15103:ℚ)/65535) (n := 23) (by positivity) (by norm_num) (by norm_num)]
  rw [fmtTwoDec_eval (q := (0:ℚ)) (n := 0) (by norm_num) (by norm_num) (by norm_num)]
  rw [fmtTwoDec_eval (q := (3084:ℚ)/65535) (n := 5) (by positivity) (by norm_num) (by norm_num)]
  rfl

/-! ### Lemmas about the hex codec -/

/-- A capture group produced by `HEX_RE`: exactly two hex digit characters. -/
def HexPair (g : List Char) : Prop :=
  ∃ a b, g = [a, b] ∧ isHexDigit a = true ∧ isHexDigit b = true

lemma hexVal_of_isHexDigit {c : Char} (h : isHexDigit c = true) :
    ∃ v, hexVal c = some v ∧ v < 16 := by
  unfold isHexDigit at h
  simp only [Bool.or_eq_true, Bool.and_eq_true, decide_eq_true_eq] at h
  unfold hexVal
  rcases h with (⟨h1, h2⟩ | ⟨h1, h2⟩) | ⟨h1, h2⟩
  · rw [if_pos ⟨h1, h2⟩]
    exact ⟨_, rfl, by omega⟩
  · rw [if_neg (by omega), if_pos ⟨h1, h2⟩]
    exact ⟨_, rfl, by omega⟩
  · rw [if_neg (by omega), if_neg (by omega), if_pos ⟨h1, h2⟩]
    exact ⟨_, rfl, by omega⟩

lemma parseU8Hex_of_hexPair {g : List Char} (h : HexPair g) :
    ∃ v, parseU8Hex g = some v := by
  obtain ⟨a, b, rfl, ha, hb⟩ := h
  obtain ⟨va, hva, hva16⟩ := hexVal_of_isHexDigit ha
  obtain ⟨vb, hvb, hvb16⟩ := hexVal_of_isHexDigit hb
  refine ⟨⟨(0 * 16 + va) * 16 + vb, by omega⟩, ?_⟩
  unfold parseU8Hex
  rw [if_neg (by simp)]
  simp only [parseHexDigits, hva, hvb]
  rw [dif_pos (by omega)]

lemma sixHexAt_hexPairs :
    ∀ {l g1 g2 g3}, sixHexAt l = some (g1, g2, g3) → HexPair g1 ∧ HexPair g2 ∧ HexPair g3
  | [], _, _, _, h => by simp [sixHexAt] at h
  | [_], _, _, _, h => by simp [sixHexAt] at h
  | [_, _], _, _, _, h => by simp [sixHexAt] at h
  | [_, _, _], _, _, _, h => by simp [sixHexAt] at h
  | [_, _, _, _], _, _, _, h => by simp [sixHexAt] at h
  | [_, _, _, _, _], _, _, _, h => by simp [sixHexAt] at h
  | a :: b :: c :: d :: e :: f :: _, g1, g2, g3, h => by
    simp only [sixHexAt] at h
    split at h
    · next hcond =>
      simp only [Bool.and_eq_true] at hcond
      obtain ⟨⟨⟨⟨⟨ha, hb⟩, hc⟩, hd⟩, he⟩, hf⟩ := hcond
      injection h with h'
      injection h' with e1 e23
      injection e23 with e2 e3
      subst e1
      subst e2
      subst e3
      exact ⟨⟨a, b, rfl, ha, hb⟩, ⟨c, d, rfl, hc, hd⟩, ⟨e, f, rfl, he, hf⟩⟩
    · exact absurd h (by simp)

lemma regexCaptures_hexPairs :
    ∀ {l g1 g2 g3}, regexCaptures l = some (g1, g2, g3) → HexPair g1 ∧ HexPair g2 ∧ HexPair g3
  | [], _, _, _, h => by simp [regexCaptures] at h
  | ch :: rest, g1, g2, g3, h => by
    simp only [regexCaptures] at h
    cases h1 : (if ch = '#' then sixHexAt rest else none) with
    | some g =>
      simp only [h1] at h
      injection h with hg
      subst hg
      split at h1
      · exact sixHexAt_hexPairs h1
      · exact absurd h1 (by simp)
    | none =>
      simp only [h1] at h
      cases h2 : sixHexAt (ch :: rest) with
      | some g =>
        simp only [h2] at h
        injection h with hg
        subst hg
        exact sixHexAt_hexPairs h2
      | none =>
        simp only [h2] at h
        exact regexCaptures_hexPairs h

lemma from_hex_ok_of_captures {s : String} {g1 g2 g3 : List Char}
    (h : regexCaptures s.data = some (g1, g2, g3)) :
    ∃ x, from_hex s = FromHexResult.ok x := by
  obtain ⟨h1, h2, h3⟩ := regexCaptures_hexPairs h
  obtain ⟨v1, hv1⟩ := parseU8Hex_of_hexPair h1
  obtain ⟨v2, hv2⟩ := parseU8Hex_of_hexPair h2
  obtain ⟨v3, hv3⟩ := parseU8Hex_of_hexPair h3
  refine ⟨RGB.new v1 v2 v3, ?_⟩
  unfold from_hex
  rw [h]
  simp only [tryFoldBytes, hv1, hv2, hv3, List.nil_append, List.cons_append]

end ColorChanger

namespace ColorChanger

/-! ### Range lemmas for `from_rgb` -/

lemma is_black_false_iff {x : RGB} :
    x.is_black = false ↔ ¬(x.r.val = 0 ∧ x.g.val = 0 ∧ x.b.val = 0) := by
  unfold RGB.is_black RGB.as_parts
  simp [List.all_cons, and_assoc]

lemma maxChan_pos {x : RGB} (h : x.is_black = false) : 0 < maxChan x := by
  rw [is_black_false_iff] at h
  unfold maxChan
  omega

lemma maxChan_le (x : RGB) : maxChan x ≤ 255 := by
  have hr := x.r.isLt
  have hg := x.g.isLt
  have hb := x.b.isLt
  unfold maxChan
  omega

lemma ratio_bounds {M v : ℕ} (hM : 0 < M) (hv : v ≤ M) :
    0 ≤ (1 - (v : ℚ)/255 - (1 - (M : ℚ)/255)) / (1 - (1 - (M : ℚ)/255)) ∧
      (1 - (v : ℚ)/255 - (1 - (M : ℚ)/255)) / (1 - (1 - (M : ℚ)/255)) ≤ 1 := by
  have hM0 : (0 : ℚ) < M := by exact_mod_cast hM
  have hvM : (v : ℚ) ≤ M := by exact_mod_cast hv
  have hv0 : (0 : ℚ) ≤ v := by positivity
  have hnum : (1 : ℚ) - (v : ℚ)/255 - (1 - (M : ℚ)/255) = ((M : ℚ) - v)/255 := by ring
  have hden : (1 : ℚ) - (1 - (M : ℚ)/255) = (M : ℚ)/255 := by ring
  have hMne : (M : ℚ) ≠ 0 := hM0.ne'
  have heq : ((M : ℚ) - v)/255 / ((M : ℚ)/255) = ((M : ℚ) - v) / M := by
    field_simp
  rw [hnum, hden, heq]
  constructor
  · exact div_nonneg (by linarith) hM0.le
  · rw [div_le_one hM0]
    linarith

lemma c_of_bounds {x : RGB} (h : x.is_black = false) :
    0 ≤ CMYK.c_of x ∧ CMYK.c_of x ≤ 1 := by
  unfold CMYK.c_of CMYK.k_of
  exact ratio_bounds (maxChan_pos h) (by unfold maxChan; omega)

lemma m_of_bounds {x : RGB} (h : x.is_black = false) :
    0 ≤ CMYK.m_of x ∧ CMYK.m_of x ≤ 1 := by
  unfold CMYK.m_of CMYK.k_of
  exact ratio_bounds (maxChan_pos h) (by unfold maxChan; omega)

lemma y_of_bounds {x : RGB} (h : x.is_black = false) :
    0 ≤ CMYK.y_of x ∧ CMYK.y_of x ≤ 1 := by
  unfold CMYK.y_of CMYK.k_of
  exact ratio_bounds (maxChan_pos h) (by unfold maxChan; omega)

lemma k_of_bounds {x : RGB} (h : x.is_black = false) :
    0 ≤ CMYK.k_of x ∧ CMYK.k_of x < 1 := by
  have h1 : (1 : ℚ) ≤ (maxChan x : ℚ) := by exact_mod_cast maxChan_pos h
  have h2 : ((maxChan x : ℕ) : ℚ) ≤ 255 := by exact_mod_cast maxChan_le x
  unfold CMYK.k_of
  constructor
  · have : (maxChan x : ℚ)/255 ≤ 1 := by rw [div_le_one (by norm_num)]; linarith
    linarith
  · have : (0 : ℚ) < (maxChan x : ℚ)/255 := by positivity
    linarith

lemma channel_prod_bounds (a k : Fin 65536) :
    0 ≤ 255 * (1 - CMYK.conv_to_float a) * (1 - CMYK.conv_to_float k) ∧
      255 * (1 - CMYK.conv_to_float a) * (1 - CMYK.conv_to_float k) ≤ 255 := by
  have h1 := conv_to_float_nonneg a
  have h2 := conv_to_float_le_one a
  have h3 := conv_to_float_nonneg k
  have h4 := conv_to_float_le_one k
  constructor
  · have ha : 0 ≤ 1 - CMYK.conv_to_float a := by linarith
    have hk : 0 ≤ 1 - CMYK.conv_to_float k := by linarith
    positivity
  · nlinarith

/-! ### Display lemmas for RGB -/

lemma hexUpperDigit_valid : ∀ m : Fin 16, isUpperHexDigit (hexUpperDigit m.val) = true := by
  decide

lemma rgb_render_data (x : RGB) :
    (RGB.render x).data =
      [hexUpperDigit (x.r.val / 16), hexUpperDigit (x.r.val % 16),
       hexUpperDigit (x.g.val / 16), hexUpperDigit (x.g.val % 16),
       hexUpperDigit (x.b.val / 16), hexUpperDigit (x.b.val % 16)] := rfl

end ColorChanger

namespace ColorChanger

/-! ### Claim theorems -/

/-- C1 (counterexample): the spec says every input that does not match the
anchored pattern `^#?[0-9a-fA-F]{6}$` as a whole is rejected with `BadInput`,
but `HEX_RE` has no anchors: `"#AABBCCDD"` does not match the anchored
pattern, yet `from_hex` accepts it (parsing the leftmost run `#AABBCC`). -/
theorem from_hex_accepts_unanchored_input :
    anchoredHexMatch "#AABBCCDD".data = false ∧
    from_hex "#AABBCCDD" = FromHexResult.ok (RGB.new 170 187 204) ∧
    from_hex "#AABBCCDD" ≠ FromHexResult.err ColorParseError.BadInput := by
  decide

/-- C1 (amended): `from_hex` returns the malformed-input error `BadInput`
exactly when the unanchored leftmost search for `#?[0-9a-fA-F]{6}` finds no
match in the input; in particular every string containing no run of six hex
digits (optionally preceded by `#`) is rejected, but extra characters before
or after such a run do not cause rejection. -/
theorem from_hex_badinput_iff_no_search_match (s : String) :
    from_hex s = FromHexResult.err ColorParseError.BadInput ↔
      regexCaptures s.data = none := by
  constructor
  · intro h
    cases hc : regexCaptures s.data with
    | none => rfl
    | some g =>
      obtain ⟨g1, g2, g3⟩ := g
      obtain ⟨x, hx⟩ := from_hex_ok_of_captures hc
      rw [hx] at h
      exact absurd h (by simp)
  · intro h
    unfold from_hex
    rw [h]

/-- C2: the RGB -> CMYK -> RGB round trip (through the generic `into_color`
pivot conversions) is exact at both corners: black and white. -/
theorem rgb_cmyk_round_trip_corners :
    (rgbIntoCmyk RGB.BLACK).map cmykIntoRgb = some RGB.BLACK ∧
    (rgbIntoCmyk RGB.WHITE).map cmykIntoRgb = some RGB.WHITE := by
  constructor
  · rw [show rgbIntoCmyk RGB.BLACK = some CMYK.BLACK from from_rgb_black]
    exact congrArg some as_rgb_black_eval
  · rw [show rgbIntoCmyk RGB.WHITE = some CMYK.WHITE from from_rgb_white]
    exact congrArg some as_rgb_white_eval

/-- C3: the named constants map to each other under the pivot conversions:
`CMYK::BLACK.as_rgb() == RGB::BLACK`, `CMYK::WHITE.as_rgb() == RGB::WHITE`,
`RGB::BLACK.into_color::<CMYK>() == CMYK::BLACK` (c = m = y = 0, k = 65535)
and `RGB::WHITE.into_color::<CMYK>() == CMYK::WHITE` (all zero). -/
theorem constants_pivot_conversions :
    CMYK.as_rgb CMYK.BLACK = RGB.BLACK ∧
    CMYK.as_rgb CMYK.WHITE = RGB.WHITE ∧
    rgbIntoCmyk RGB.BLACK = some CMYK.BLACK ∧
    rgbIntoCmyk RGB.WHITE = some CMYK.WHITE ∧
    CMYK.BLACK = CMYK.from_parts 0 0 0 65535 ∧
    CMYK.WHITE = CMYK.from_parts 0 0 0 0 :=
  ⟨as_rgb_black_eval, as_rgb_white_eval, from_rgb_black, from_rgb_white, rfl, rfl⟩

/-- C4: `CMYK::new` rejects (panics, modelled as `none`) whenever any of the
four float components lies outside the closed interval `[0, 1]`. -/
theorem cmyk_new_rejects_out_of_range (c m y k : ℚ)
    (h : ¬(0 ≤ c ∧ c ≤ 1) ∨ ¬(0 ≤ m ∧ m ≤ 1) ∨ ¬(0 ≤ y ∧ y ≤ 1) ∨ ¬(0 ≤ k ∧ k ≤ 1)) :
    CMYK.new c m y k = none := by
  have hnone : ∀ f : ℚ, ¬(0 ≤ f ∧ f ≤ 1) → CMYK.conv_to_int f = none := by
    intro f hf
    unfold CMYK.conv_to_int
    rw [if_neg]
    unfold CMYK.valid_cmyk_float
    exact fun hc => hf (of_decide_eq_true hc)
  unfold CMYK.new
  rcases h with h | h | h | h
  · rw [hnone c h]
    rfl
  · cases hc : CMYK.conv_to_int c with
    | none => rfl
    | some c' =>
      rw [hnone m h]
      rfl
  · cases hc : CMYK.conv_to_int c with
    | none => rfl
    | some c' =>
      cases hm : CMYK.conv_to_int m with
      | none => rfl
      | some m' =>
        rw [hnone y h]
        rfl
  · cases hc : CMYK.conv_to_int c with
    | none => rfl
    | some c' =>
      cases hm : CMYK.conv_to_int m with
      | none => rfl
      | some m' =>
        cases hy : CMYK.conv_to_int y with
        | none => rfl
        | some y' =>
          rw [hnone k h]
          rfl

/-- C4 (witness): `CMYK::new(1.5, 0, 0, 0)` fails. -/
theorem cmyk_new_rejects_witness : CMYK.new (3/2) 0 0 0 = none :=
  cmyk_new_rejects_out_of_range (3/2) 0 0 0 (Or.inl (by norm_num))

/-- C5: `CMYK::from_rgb` never triggers the constructor's rejection: the
conversion always succeeds, and for every non-black input the four computed
floats lie in `[0, 1]` with `k < 1`. -/
theorem from_rgb_stays_in_range (x : RGB) :
    (CMYK.from_rgb x).isSome = true ∧
    (x.is_black = false →
      0 ≤ CMYK.k_of x ∧ CMYK.k_of x < 1 ∧
      0 ≤ CMYK.c_of x ∧ CMYK.c_of x ≤ 1 ∧
      0 ≤ CMYK.m_of x ∧ CMYK.m_of x ≤ 1 ∧
      0 ≤ CMYK.y_of x ∧ CMYK.y_of x ≤ 1) := by
  constructor
  · cases hb : x.is_black with
    | true =>
      unfold CMYK.from_rgb
      rw [hb]
      rfl
    | false =>
      rw [from_rgb_not_black_eq hb]
      obtain ⟨hk0, hk1⟩ := k_of_bounds hb
      obtain ⟨hc0, hc1⟩ := c_of_bounds hb
      obtain ⟨hm0, hm1⟩ := m_of_bounds hb
      obtain ⟨hy0, hy1⟩ := y_of_bounds hb
      obtain ⟨vc, hvc⟩ := conv_to_int_isSome hc0 hc1
      obtain ⟨vm, hvm⟩ := conv_to_int_isSome hm0 hm1
      obtain ⟨vy, hvy⟩ := conv_to_int_isSome hy0 hy1
      obtain ⟨vk, hvk⟩ := conv_to_int_isSome hk0 hk1.le
      unfold CMYK.new
      rw [hvc, hvm, hvy, hvk]
      rfl
  · intro hb
    exact ⟨(k_of_bounds hb).1, (k_of_bounds hb).2,
      (c_of_bounds hb).1, (c_of_bounds hb).2,
      (m_of_bounds hb).1, (m_of_bounds hb).2,
      (y_of_bounds hb).1, (y_of_bounds hb).2⟩

/-- C5 (witness): instantiation at the non-black value RGB(1, 2, 3). -/
theorem from_rgb_stays_in_range_witness :
    (CMYK.from_rgb (RGB.new 1 2 3)).isSome = true ∧
    (0 ≤ CMYK.k_of (RGB.new 1 2 3) ∧ CMYK.k_of (RGB.new 1 2 3) < 1 ∧
     0 ≤ CMYK.c_of (RGB.new 1 2 3) ∧ CMYK.c_of (RGB.new 1 2 3) ≤ 1 ∧
     0 ≤ CMYK.m_of (RGB.new 1 2 3) ∧ CMYK.m_of (RGB.new 1 2 3) ≤ 1 ∧
     0 ≤ CMYK.y_of (RGB.new 1 2 3) ∧ CMYK.y_of (RGB.new 1 2 3) ≤ 1) :=
  ⟨(from_rgb_stays_in_range (RGB.new 1 2 3)).1,
   (from_rgb_stays_in_range (RGB.new 1 2 3)).2 (by decide)⟩

/-- C6: `CMYK::from_rgb` follows the documented algorithm: exact black maps
to the `CMYK::BLACK` constant, and otherwise the result is built by the
float constructor from `k = 1 - max(r,g,b)/255` (integer max) and the three
channels `(1 - v_p - k) / (1 - k)`. -/
theorem from_rgb_follows_algorithm (x : RGB) :
    (x.is_black = true → CMYK.from_rgb x = some CMYK.BLACK) ∧
    (x.is_black = false →
      CMYK.from_rgb x = CMYK.new
        ((1 - (x.r.val : ℚ)/255 - (1 - (maxChan x : ℚ)/255)) / (1 - (1 - (maxChan x : ℚ)/255)))
        ((1 - (x.g.val : ℚ)/255 - (1 - (maxChan x : ℚ)/255)) / (1 - (1 - (maxChan x : ℚ)/255)))
        ((1 - (x.b.val : ℚ)/255 - (1 - (maxChan x : ℚ)/255)) / (1 - (1 - (maxChan x : ℚ)/255)))
        (1 - (maxChan x : ℚ)/255)) := by
  constructor
  · intro h
    unfold CMYK.from_rgb
    rw [h]
    rfl
  · intro h
    rw [from_rgb_not_black_eq h]
    rfl

/-- C6 (witness): instantiation at black and at RGB(1, 2, 3). -/
theorem from_rgb_follows_algorithm_witness :
    RGB.BLACK.is_black = true ∧
    CMYK.from_rgb RGB.BLACK = some CMYK.BLACK ∧
    (RGB.new 1 2 3).is_black = false ∧
    CMYK.from_rgb (RGB.new 1 2 3) = CMYK.new
      ((1 - ((RGB.new 1 2 3).r.val : ℚ)/255 - (1 - (maxChan (RGB.new 1 2 3) : ℚ)/255)) /
        (1 - (1 - (maxChan (RGB.new 1 2 3) : ℚ)/255)))
      ((1 - ((RGB.new 1 2 3).g.val : ℚ)/255 - (1 - (maxChan (RGB.new 1 2 3) : ℚ)/255)) /
        (1 - (1 - (maxChan (RGB.new 1 2 3) : ℚ)/255)))
      ((1 - ((RGB.new 1 2 3).b.val : ℚ)/255 - (1 - (maxChan (RGB.new 1 2 3) : ℚ)/255)) /
        (1 - (1 - (maxChan (RGB.new 1 2 3) : ℚ)/255)))
      (1 - (maxChan (RGB.new 1 2 3) : ℚ)/255) :=
  ⟨by decide, (from_rgb_follows_algorithm RGB.BLACK).1 (by decide), by decide,
   (from_rgb_follows_algorithm (RGB.new 1 2 3)).2 (by decide)⟩

/-- C7: `CMYK::as_rgb` computes every channel as
`255 * (1 - channel_float) * (1 - k_float)`, rounded exactly once after the
full multiplication, and the rounded value already lies in `[0, 255]`, so
the narrowing cast never clamps. -/
theorem as_rgb_single_rounding (x : CMYK) :
    CMYK.as_rgb x = RGB.new
      (intAsU8 (f64Round (255 * (1 - CMYK.conv_to_float x.c) * (1 - CMYK.conv_to_float x.k))))
      (intAsU8 (f64Round (255 * (1 - CMYK.conv_to_float x.m) * (1 - CMYK.conv_to_float x.k))))
      (intAsU8 (f64Round (255 * (1 - CMYK.conv_to_float x.y) * (1 - CMYK.conv_to_float x.k)))) ∧
    (0 ≤ f64Round (255 * (1 - CMYK.conv_to_float x.c) * (1 - CMYK.conv_to_float x.k)) ∧
      f64Round (255 * (1 - CMYK.conv_to_float x.c) * (1 - CMYK.conv_to_float x.k)) ≤ 255) ∧
    (0 ≤ f64Round (255 * (1 - CMYK.conv_to_float x.m) * (1 - CMYK.conv_to_float x.k)) ∧
      f64Round (255 * (1 - CMYK.conv_to_float x.m) * (1 - CMYK.conv_to_float x.k)) ≤ 255) ∧
    (0 ≤ f64Round (255 * (1 - CMYK.conv_to_float x.y) * (1 - CMYK.conv_to_float x.k)) ∧
      f64Round (255 * (1 - CMYK.conv_to_float x.y) * (1 - CMYK.conv_to_float x.k)) ≤ 255) := by
  refine ⟨as_rgb_eq x, ?_, ?_, ?_⟩
  · obtain ⟨h0, h255⟩ := channel_prod_bounds x.c x.k
    exact ⟨f64Round_nonneg h0, f64Round_le h0 h255⟩
  · obtain ⟨h0, h255⟩ := channel_prod_bounds x.m x.k
    exact ⟨f64Round_nonneg h0, f64Round_le h0 h255⟩
  · obtain ⟨h0, h255⟩ := channel_prod_bounds x.y x.k
    exact ⟨f64Round_nonneg h0, f64Round_le h0 h255⟩

/-- C8: every RGB value renders as exactly six uppercase hexadecimal digits,
two zero-padded digits per channel in R,G,B order with no separator or `#`;
black renders as `"000000"` and white as `"FFFFFF"`. -/
theorem rgb_display_uppercase_hex :
    (∀ x : RGB,
      RGB.render x = byteHex x.r.val ++ byteHex x.g.val ++ byteHex x.b.val ∧
      (RGB.render x).length = 6 ∧
      ∀ ch ∈ (RGB.render x).data, isUpperHexDigit ch = true) ∧
    RGB.render (RGB.new 0 0 0) = "000000" ∧
    RGB.render (RGB.new 255 255 255) = "FFFFFF" := by
  refine ⟨fun x => ⟨rfl, rfl, ?_⟩, by decide, by decide⟩
  intro ch hch
  rw [rgb_render_data] at hch
  have hr := x.r.isLt
  have hg := x.g.isLt
  have hb := x.b.isLt
  simp only [List.mem_cons, List.not_mem_nil, or_false] at hch
  rcases hch with rfl | rfl | rfl | rfl | rfl | rfl
  · exact hexUpperDigit_valid ⟨x.r.val / 16, by omega⟩
  · exact hexUpperDigit_valid ⟨x.r.val % 16, by omega⟩
  · exact hexUpperDigit_valid ⟨x.g.val / 16, by omega⟩
  · exact hexUpperDigit_valid ⟨x.g.val % 16, by omega⟩
  · exact hexUpperDigit_valid ⟨x.b.val / 16, by omega⟩
  · exact hexUpperDigit_valid ⟨x.b.val % 16, by omega⟩

/-- C9: parsing `"#EDBBF3"` succeeds with RGB(0xED, 0xBB, 0xF3); converting
to CMYK and formatting gives `"(0.02,0.23,0.00,0.05)"`, and converting that
CMYK value back to RGB reproduces RGB(0xED, 0xBB, 0xF3) exactly. -/
theorem hex_edbbf3_cmyk_pipeline :
    from_hex "#EDBBF3" = FromHexResult.ok (RGB.new 237 187 243) ∧
    (CMYK.from_rgb (RGB.new 237 187 243)).map CMYK.render = some "(0.02,0.23,0.00,0.05)" ∧
    (CMYK.from_rgb (RGB.new 237 187 243)).map CMYK.as_rgb = some (RGB.new 237 187 243) := by
  refine ⟨by decide, ?_, ?_⟩
  · rw [from_rgb_edbbf3]
    exact congrArg some render_edbbf3
  · rw [from_rgb_edbbf3]
    exact congrArg some as_rgb_edbbf3

/-- C10: `from_hex` is total: for every input it either succeeds or returns
`BadInput`; the `ParseFailure` variant is never produced and the
`unreachable!()` arm (modelled by `panicked`) is never taken. -/
theorem from_hex_ok_or_badinput (s : String) :
    (∃ x, from_hex s = FromHexResult.ok x) ∨
      from_hex s = FromHexResult.err ColorParseError.BadInput := by
  cases hc : regexCaptures s.data with
  | none =>
    right
    unfold from_hex
    rw [hc]
  | some g =>
    obtain ⟨g1, g2, g3⟩ := g
    exact Or.inl (from_hex_ok_of_captures hc)

end ColorChanger
